import Mathlib

/-!
Verification of the per-track media reception core of the livekit SFU.

The Go sources are shallowly embedded: machine integers become `Nat`
(with explicit `% 2^w` where the Go code relies on wrap-around), pointers
into the packet-meta arena become arena indices, wall-clock reads become
explicit `now`/`refTime` parameters, and `float64` accumulators that no
verified property depends on (jitter) are modelled by exact rationals.
-/

namespace LiveKit

/-- Two to the sixty-fourth, the range of Go's `uint64`. -/
def u64Range : ℕ := 2 ^ 64

/-- Two to the thirty-second, the range of Go's `uint32`. -/
def u32Range : ℕ := 2 ^ 32

/-- Range of Go's `uint16`. -/
def u16Range : ℕ := 65536

/-- Unsigned modular subtraction `a - b` in a ring of size `range`
(for operands already reduced, i.e. `a, b < range`). -/
def uSub (range a b : ℕ) : ℕ := (a + range - b) % range

/-- Reduce the signed quantity `cycles * fullRange + val` into `uint64`,
as Go computes `ET(cycles)*fullRange + ET(val)` (a locally negative
`cycles` wraps around the unsigned domain). -/
def ext64 (cycles : ℤ) (fullRange val : ℕ) : ℕ :=
  ((cycles * fullRange + val) % (u64Range : ℤ)).toNat

/-- State of `WrapAround[T, ET]` (src/pkg/sfu/forwardstats.go):
`fullRange` is `1 << bits(T)`, `start`/`highest` are `T`-values kept
below `fullRange`, `cycles` is Go's `int`. `ET` is `uint64` in both
instantiations the stats engine uses. -/
structure WrapAround where
  fullRange : ℕ
  initialized : Bool
  start : ℕ
  highest : ℕ
  cycles : ℤ
  deriving Repr, DecidableEq

/-- `NewWrapAround`. -/
def WrapAround.new (fullRange : ℕ) : WrapAround :=
  { fullRange := fullRange, initialized := false, start := 0, highest := 0, cycles := 0 }

/-- `GetExtendedStart`. -/
def WrapAround.getExtendedStart (w : WrapAround) : ℕ := w.start

/-- `GetExtendedHighest`. -/
def WrapAround.getExtendedHighest (w : WrapAround) : ℕ :=
  ext64 w.cycles w.fullRange w.highest

/-- Result record of `WrapAround.Update`. -/
structure WrapAroundUpdateResult where
  isRestart : Bool
  preExtendedStart : ℕ
  preExtendedHighest : ℕ
  extendedVal : ℕ
  deriving Repr, DecidableEq

/-- `maybeAdjustStart` (src/pkg/sfu/forwardstats.go lines 994-1031).
Returns the updated state together with `(isRestart, preExtendedStart,
extendedVal)`. -/
def WrapAround.maybeAdjustStart (w : WrapAround) (val : ℕ) :
    WrapAround × Bool × ℕ × ℕ :=
  let isWrapBack := w.highest < w.fullRange / 2 ∧ w.fullRange / 2 ≤ val
  let totalNum := (w.getExtendedHighest + u64Range - w.getExtendedStart + 1) % u64Range
  if totalNum > w.fullRange / 2 then
    let cycles := if isWrapBack then w.cycles - 1 else w.cycles
    (w, false, 0, ext64 cycles w.fullRange val)
  else if uSub w.fullRange val w.start > w.fullRange / 2 then
    -- out-of-order with existing start => a new start
    let preStart := w.getExtendedStart
    let (w1, cycles) :=
      if val > w.highest then ({ w with cycles := 1 }, (0 : ℤ)) else (w, w.cycles)
    ({ w1 with start := val }, true, preStart, ext64 cycles w.fullRange val)
  else
    let cycles := if isWrapBack then w.cycles - 1 else w.cycles
    (w, false, 0, ext64 cycles w.fullRange val)

/-- `WrapAround.Update` (src/pkg/sfu/forwardstats.go lines 944-972). -/
def WrapAround.update (w : WrapAround) (val : ℕ) :
    WrapAround × WrapAroundUpdateResult :=
  if !w.initialized then
    ({ w with start := val, highest := val, initialized := true },
     { isRestart := false, preExtendedStart := 0,
       preExtendedHighest := (val + u64Range - 1) % u64Range, extendedVal := val })
  else
    let preHighest := w.getExtendedHighest
    let gap := uSub w.fullRange val w.highest
    if gap = 0 ∨ gap > w.fullRange / 2 then
      -- duplicate OR out-of-order
      let (w', isRestart, preStart, extVal) := w.maybeAdjustStart val
      (w', { isRestart := isRestart, preExtendedStart := preStart,
             preExtendedHighest := preHighest, extendedVal := extVal })
    else
      -- in-order
      let cycles := if val < w.highest then w.cycles + 1 else w.cycles
      ({ w with cycles := cycles, highest := val },
       { isRestart := false, preExtendedStart := 0,
         preExtendedHighest := preHighest, extendedVal := ext64 cycles w.fullRange val })

/-- `ResetHighest`. Modelled from the spec: `ResetHighest(new)` "forces the
highest to an externally chosen value (used on resync)"; the resync caller
in the stats engine passes an extended (`uint64`) value, so the extended
highest is forced to it by splitting it into cycles and in-range part. -/
def WrapAround.resetHighest (w : WrapAround) (extVal : ℕ) : WrapAround :=
  { w with cycles := (extVal / w.fullRange : ℕ), highest := extVal % w.fullRange }

/-- `RollbackRestart`. Modelled from the spec: "`RollbackRestart(prev)`
restores `start` to `prev`" (the function is referenced by the stats engine
but its definition is not among the provided sources). -/
def WrapAround.rollbackRestart (w : WrapAround) (prevExtendedStart : ℕ) : WrapAround :=
  { w with start := prevExtendedStart % w.fullRange }

/-- Run a list of values through a `WrapAround`, collecting results. -/
def WrapAround.runUpdates (w : WrapAround) (vals : List ℕ) :
    WrapAround × List WrapAroundUpdateResult :=
  vals.foldl (fun (acc : WrapAround × List WrapAroundUpdateResult) v =>
    let (w', r) := acc.1.update v
    (w', acc.2 ++ [r])) (w, [])

/-- A fresh `u16 → u64` extender, `NewWrapAround[uint16, uint64]()`. -/
def newWrapAround16 : WrapAround := WrapAround.new u16Range

/-- A fresh `u32 → u64` extender, `NewWrapAround[uint32, uint64]()`. -/
def newWrapAround32 : WrapAround := WrapAround.new u32Range

/-- Unsigned 64-bit subtraction (operands below `2^64`). -/
def u64sub (a b : ℕ) : ℕ := (a + u64Range - b) % u64Range

/-- Reinterpret an unsigned 64-bit value as Go's `int64`. -/
def toInt64 (a : ℕ) : ℤ := if a < 2 ^ 63 then (a : ℤ) else (a : ℤ) - u64Range

/-! ## RTP Stats Engine (src/unnamed/part_000)

Instants are integer nanoseconds (`ℤ`); Go's `time.Time` zero value is
modelled by `Option` where the code tests `IsZero`. Wall-clock reads
(`time.Now()`) become explicit `now` arguments. The `float64` jitter
accumulator is modelled by exact rationals (no verified property depends
on its rounding). -/

/-- Constants from src/unnamed/part_000 lines 33-42. -/
def GapHistogramNumBins : ℕ := 101

/-- Ring size for per-sequence records. -/
def SnInfoSize : ℕ := 8192

/-- `SnInfoMask`. -/
def SnInfoMask : ℕ := SnInfoSize - 1

/-- `FirstSnapshotId`. -/
def FirstSnapshotId : ℕ := 1

/-- `firstPacketTimeAdjustWindow` (2 minutes) in nanoseconds. -/
def firstPacketTimeAdjustWindow : ℤ := 120 * 1000000000

/-- `firstPacketTimeAdjustThreshold` (5 seconds) in nanoseconds. -/
def firstPacketTimeAdjustThreshold : ℤ := 5 * 1000000000

/-- `RTPFlowState` (src/unnamed/part_000 lines 60-72). -/
structure RTPFlowState where
  isNotHandled : Bool := false
  hasLoss : Bool := false
  lossStartInclusive : ℕ := 0
  lossEndExclusive : ℕ := 0
  isDuplicate : Bool := false
  isOutOfOrder : Bool := false
  extSequenceNumber : ℕ := 0
  extTimestamp : ℕ := 0
  deriving Repr, DecidableEq

/-- `SnInfo` (src/unnamed/part_000 lines 125-131); sizes are `uint16`. -/
structure SnInfo where
  hdrSize : ℕ := 0
  pktSize : ℕ := 0
  isPaddingOnly : Bool := false
  marker : Bool := false
  isOutOfOrder : Bool := false
  deriving Repr, DecidableEq

/-- `Snapshot` (src/unnamed/part_000 lines 109-123). -/
structure Snapshot where
  startTime : ℤ := 0
  extStartSN : ℕ := 0
  extStartSNOverridden : ℕ := 0
  packetsDuplicate : ℕ := 0
  bytesDuplicate : ℕ := 0
  headerBytesDuplicate : ℕ := 0
  packetsLostOverridden : ℕ := 0
  nacks : ℕ := 0
  plis : ℕ := 0
  firs : ℕ := 0
  maxRtt : ℕ := 0
  maxJitter : ℚ := 0
  maxJitterOverridden : ℚ := 0
  deriving Repr, DecidableEq

/-- `RTCPSenderReportData` (src/unnamed/part_000 lines 133-141); the NTP
timestamp is the `uint64` wire value of `mediatransportutil.NtpTime`. -/
structure RTCPSenderReportData where
  rtpTimestamp : ℕ := 0
  rtpTimestampExt : ℕ := 0
  ntpTimestamp : ℕ := 0
  packetCount : ℕ := 0
  packetCountExt : ℕ := 0
  paddingOnlyDrops : ℕ := 0
  srAt : ℤ := 0
  deriving Repr, DecidableEq

/-- The fields of `rtp.Header` the stats engine reads, plus the value of
the external `MarshalSize()` call (header bytes on the wire). -/
structure RTPHeader where
  sequenceNumber : ℕ
  timestamp : ℕ
  marker : Bool
  marshalSize : ℕ
  deriving Repr, DecidableEq

/-- `RTPStatsParams`. -/
structure RTPStatsParams where
  clockRate : ℕ
  isReceiverReportDriven : Bool := false
  deriving Repr, DecidableEq

/-- `RTPStats` (src/unnamed/part_000 lines 149-227): the fields read or
written by the embedded operations. The SnInfo ring and the gap histogram
are total functions read at indices below `SnInfoSize` /
`GapHistogramNumBins`; snapshots are a partial map from snapshot id. -/
structure RTPStats where
  params : RTPStatsParams
  initialized : Bool := false
  resyncOnNextPacket : Bool := false
  shouldDiscountPaddingOnlyDrops : Bool := false
  startTime : ℤ := 0
  endTime : Option ℤ := none
  sequenceNumber : WrapAround := newWrapAround16
  timestamp : WrapAround := newWrapAround32
  firstTime : ℤ := 0
  highestTime : ℤ := 0
  lastTransit : ℕ := 0
  lastJitterRTP : ℕ := 0
  bytes : ℕ := 0
  headerBytes : ℕ := 0
  bytesDuplicate : ℕ := 0
  headerBytesDuplicate : ℕ := 0
  bytesPadding : ℕ := 0
  headerBytesPadding : ℕ := 0
  packetsDuplicate : ℕ := 0
  packetsPadding : ℕ := 0
  packetsOutOfOrder : ℕ := 0
  packetsLost : ℕ := 0
  frames : ℕ := 0
  jitter : ℚ := 0
  maxJitter : ℚ := 0
  snInfos : ℕ → SnInfo := fun _ => {}
  snInfoWritePtr : ℕ := 0
  gapHistogram : ℕ → ℕ := fun _ => 0
  nacks : ℕ := 0
  plis : ℕ := 0
  firs : ℕ := 0
  rtt : ℕ := 0
  maxRtt : ℕ := 0
  srFirst : Option RTCPSenderReportData := none
  srNewest : Option RTCPSenderReportData := none
  nextSnapshotId : ℕ := FirstSnapshotId
  snapshots : ℕ → Option Snapshot := fun _ => none

/-- `NewRTPStats`. -/
def newRTPStats (params : RTPStatsParams) : RTPStats := { params := params }

namespace RTPStats

/-- `Stop` (src/unnamed/part_000 lines 339-344). -/
def stop (r : RTPStats) (now : ℤ) : RTPStats := { r with endTime := some now }

/-- `UpdateNack` (src/unnamed/part_000 lines 717-726). -/
def updateNack (r : RTPStats) (nackCount : ℕ) : RTPStats :=
  if (r.endTime).isSome then r else { r with nacks := r.nacks + nackCount }

/-- `getSnInfoOutOfOrderPtr` (src/unnamed/part_000 lines 1499-1511):
`none` models the `-1` sentinel; the Go `&` with `SnInfoMask` on a
possibly negative `int` is a Euclidean remainder. -/
def getSnInfoOutOfOrderPtr (r : RTPStats) (esn ehsn : ℕ) : Option ℕ :=
  if 0 < toInt64 (u64sub esn ehsn) then
    none -- in-order, not expected, maybe too new
  else
    let offset := u64sub ehsn esn
    if SnInfoSize ≤ offset then
      none -- too old, ignore
    else
      some ((((r.snInfoWritePtr : ℤ) - (offset : ℤ) - 1).emod SnInfoSize).toNat)

/-- `setSnInfo` (src/unnamed/part_000 lines 1513-1532); size arguments
are already truncated to `uint16` by the caller. -/
def setSnInfo (r : RTPStats) (esn ehsn pktSize hdrSize payloadSize : ℕ)
    (marker isOutOfOrder : Bool) : RTPStats :=
  let ooo := toInt64 (u64sub esn ehsn) < 0
  let writePtr? : Option (ℕ × RTPStats) :=
    if !ooo then
      some (r.snInfoWritePtr, { r with snInfoWritePtr := (r.snInfoWritePtr + 1) % SnInfoSize })
    else
      match r.getSnInfoOutOfOrderPtr esn ehsn with
      | none => none
      | some p => some (p, r)
  match writePtr? with
  | none => r
  | some (writePtr, r1) =>
      { r1 with snInfos := fun i =>
          if i = writePtr then
            { hdrSize := hdrSize, pktSize := pktSize,
              isPaddingOnly := payloadSize = 0, marker := marker,
              isOutOfOrder := isOutOfOrder }
          else r1.snInfos i }

/-- One step of `clearSnInfos`: clear the slot at the write pointer and
advance it. -/
def clearSnInfoStep (r : RTPStats) : RTPStats :=
  { r with
    snInfos := fun i =>
      if i = r.snInfoWritePtr then
        { hdrSize := 0, pktSize := 0, isPaddingOnly := false, marker := false,
          isOutOfOrder := (r.snInfos r.snInfoWritePtr).isOutOfOrder }
      else r.snInfos i
    snInfoWritePtr := (r.snInfoWritePtr + 1) % SnInfoSize }

/-- `clearSnInfos` (src/unnamed/part_000 lines 1534-1544): the Go loop
runs `esn` from start to end in `uint64` arithmetic, i.e.
`u64sub end start` iterations. -/
def clearSnInfos (r : RTPStats) (extStartInclusive extEndExclusive : ℕ) : RTPStats :=
  Nat.rec r (fun _ acc => acc.clearSnInfoStep) (u64sub extEndExclusive extStartInclusive)

/-- `isSnInfoLost` (src/unnamed/part_000 lines 1546-1554). -/
def isSnInfoLost (r : RTPStats) (esn ehsn : ℕ) : Bool :=
  match r.getSnInfoOutOfOrderPtr esn ehsn with
  | none => false
  | some readPtr => (r.snInfos readPtr).pktSize = 0

/-- `updateGapHistogram` (src/unnamed/part_000 lines 1684-1695). -/
def updateGapHistogram (r : RTPStats) (gap : ℤ) : RTPStats :=
  if gap < 2 then r
  else
    let missing := gap - 1
    if missing > GapHistogramNumBins then
      { r with gapHistogram := fun i =>
          if i = GapHistogramNumBins - 1 then r.gapHistogram i + 1 else r.gapHistogram i }
    else
      { r with gapHistogram := fun i =>
          if i = (missing - 1).toNat then r.gapHistogram i + 1 else r.gapHistogram i }

/-- `updateJitter` (src/unnamed/part_000 lines 1606-1641). The `int64`
nanosecond products are computed exactly (their 64-bit wrap would need a
multi-year stream) and truncated to `uint32` exactly as Go does; the
`float64` accumulator is an exact rational. -/
def updateJitter (r : RTPStats) (rtph : RTPHeader) (packetTime : ℤ) : RTPStats :=
  if r.lastJitterRTP = rtph.timestamp then r
  else
    let timeSinceFirst : ℤ := packetTime - r.firstTime
    let packetTimeRTP : ℕ := ((timeSinceFirst * r.params.clockRate / 1000000000).emod u32Range).toNat
    let transit : ℕ := uSub u32Range packetTimeRTP (rtph.timestamp % u32Range)
    let r1 :=
      if r.lastTransit ≠ 0 then
        let d32 := uSub u32Range transit r.lastTransit
        let d : ℤ := if d32 < 2 ^ 31 then (d32 : ℤ) else (d32 : ℤ) - u32Range
        let dAbs : ℤ := if d < 0 then -d else d
        let jitter := r.jitter + ((dAbs : ℚ) - r.jitter) / 16
        let maxJitter := if jitter > r.maxJitter then jitter else r.maxJitter
        { r with jitter := jitter, maxJitter := maxJitter,
                 snapshots := fun i =>
                   match r.snapshots i with
                   | none => none
                   | some s =>
                       some (if jitter > s.maxJitter then { s with maxJitter := jitter } else s) }
      else r
    { r1 with lastTransit := transit, lastJitterRTP := rtph.timestamp }

/-- The resync block of `Update` (src/unnamed/part_000 lines 381-448):
reconstruct the expected extended SN/TS from the newest sender report and
force the extenders' highest values. Bit masks become `% 2^16` / clearing
of the low bits; the `uint16`/`uint32` comparisons are modular. -/
def resyncLocked (r : RTPStats) (rtph : RTPHeader) (packetTime : ℤ) : RTPStats :=
  let sn := rtph.sequenceNumber
  let ts := rtph.timestamp
  let snCycles : ℕ :=
    match r.srNewest with
    | none => 0
    | some sr =>
        if sr.packetCountExt ≠ 0 then
          let extExpectedHighestSN :=
            let e := (r.sequenceNumber.getExtendedStart + sr.packetCountExt) % u64Range
            if r.shouldDiscountPaddingOnlyDrops then u64sub e sr.paddingOnlyDrops else e
          let expectedHighestSN := extExpectedHighestSN % u16Range
          let c0 := extExpectedHighestSN - extExpectedHighestSN % u16Range
          let c1 :=
            if uSub u16Range sn expectedHighestSN < 2 ^ 15 ∧ sn < expectedHighestSN then
              (c0 + 2 ^ 16) % u64Range
            else c0
          if c1 ≠ 0 ∧ uSub u16Range expectedHighestSN sn < 2 ^ 15 ∧ expectedHighestSN < sn then
            u64sub c1 (2 ^ 16)
          else c1
        else 0
  let tsCycles : ℕ :=
    match r.srNewest with
    | none => 0
    | some sr =>
        let extExpectedHighestTS := sr.rtpTimestampExt
        let expectedHighestTS := extExpectedHighestTS % u32Range
        let c0 := extExpectedHighestTS - extExpectedHighestTS % u32Range
        let c1 :=
          if uSub u32Range ts expectedHighestTS < 2 ^ 31 ∧ ts < expectedHighestTS then
            (c0 + 2 ^ 32) % u64Range
          else c0
        if c1 ≠ 0 ∧ uSub u32Range expectedHighestTS ts < 2 ^ 31 ∧ expectedHighestTS < ts then
          u64sub c1 (2 ^ 32)
        else c1
  { r with
    sequenceNumber := r.sequenceNumber.resetHighest (u64sub ((snCycles + sn) % u64Range) 1)
    timestamp := r.timestamp.resetHighest ((tsCycles + ts) % u64Range)
    highestTime := packetTime }

/-- `Update` (src/unnamed/part_000 lines 372-592). `packetTime` is the
packet's arrival instant; `now` stands for the `time.Now()` read on
stream start. Returns the new state and the flow state. -/
def update (r : RTPStats) (rtph : RTPHeader) (payloadSize paddingSize : ℕ)
    (packetTime now : ℤ) : RTPStats × RTPFlowState :=
  if (r.endTime).isSome then
    (r, { isNotHandled := true })
  else
    let r1 :=
      if r.resyncOnNextPacket then
        let r' := { r with resyncOnNextPacket := false }
        if r'.initialized then r'.resyncLocked rtph packetTime else r'
      else r
    if !r1.initialized ∧ payloadSize = 0 then
      -- do not start on a padding only packet
      (r1, { isNotHandled := true })
    else
      let (r2, resSN, resTS) :=
        if !r1.initialized then
          let r' := { r1 with initialized := true, startTime := now,
                              firstTime := packetTime, highestTime := packetTime }
          let (seq, resSN) := r'.sequenceNumber.update rtph.sequenceNumber
          let (tsw, resTS) := r'.timestamp.update rtph.timestamp
          let extStartSN := seq.getExtendedStart
          let r'' := { r' with sequenceNumber := seq, timestamp := tsw,
                               snapshots := fun i =>
                                 if FirstSnapshotId ≤ i ∧ i < r'.nextSnapshotId then
                                   some { startTime := r'.startTime, extStartSN := extStartSN,
                                          extStartSNOverridden := extStartSN }
                                 else r'.snapshots i }
          (r'', resSN, resTS)
        else
          let (seq, resSN) := r1.sequenceNumber.update rtph.sequenceNumber
          let (tsw, resTS) := r1.timestamp.update rtph.timestamp
          ({ r1 with sequenceNumber := seq, timestamp := tsw }, resSN, resTS)
      let hdrSize := rtph.marshalSize
      let pktSize := hdrSize + payloadSize + paddingSize
      let gapSN : ℤ := toInt64 (u64sub resSN.extendedVal resSN.preExtendedHighest)
      let (r6, flowState, earlyReturn) :=
        if gapSN ≤ 0 then -- duplicate OR out-of-order
          let r3 :=
            if payloadSize = 0 ∧ resTS.isRestart then
              { r2 with timestamp := r2.timestamp.rollbackRestart resTS.preExtendedStart }
            else r2
          if payloadSize = 0 ∧ resSN.isRestart then
            -- roll back the sequence number restart and bail out
            ({ r3 with sequenceNumber := r3.sequenceNumber.rollbackRestart resSN.preExtendedStart },
             ({} : RTPFlowState), true)
          else
            let r4 := if gapSN ≠ 0 then { r3 with packetsOutOfOrder := r3.packetsOutOfOrder + 1 } else r3
            let r5 :=
              if resSN.isRestart then
                let extStartSN := r4.sequenceNumber.getExtendedStart
                { r4 with
                  packetsLost :=
                    (r4.packetsLost + u64sub resSN.preExtendedStart resSN.extendedVal) % u64Range
                  snapshots := fun i =>
                    match r4.snapshots i with
                    | none => none
                    | some s =>
                        some (if s.extStartSN = resSN.preExtendedStart then
                                { s with extStartSN := extStartSN } else s) }
              else r4
            if !r5.isSnInfoLost resSN.extendedVal resSN.preExtendedHighest then
              ({ r5 with bytesDuplicate := r5.bytesDuplicate + pktSize,
                         headerBytesDuplicate := r5.headerBytesDuplicate + hdrSize,
                         packetsDuplicate := r5.packetsDuplicate + 1 },
               { isDuplicate := true, isOutOfOrder := true,
                 extSequenceNumber := resSN.extendedVal, extTimestamp := resTS.extendedVal },
               false)
            else
              let r5' := { r5 with packetsLost := u64sub r5.packetsLost 1 }
              (r5'.setSnInfo resSN.extendedVal resSN.preExtendedHighest
                 (pktSize % u16Range) (hdrSize % u16Range) (payloadSize % u16Range)
                 rtph.marker true,
               { isOutOfOrder := true,
                 extSequenceNumber := resSN.extendedVal, extTimestamp := resTS.extendedVal },
               false)
        else -- in-order
          let r3 := r2.updateGapHistogram gapSN
          let r4 := r3.clearSnInfos ((resSN.preExtendedHighest + 1) % u64Range) resSN.extendedVal
          let r5 := { r4 with packetsLost := (r4.packetsLost + (gapSN - 1).toNat) % u64Range }
          let r5' := r5.setSnInfo resSN.extendedVal resSN.preExtendedHighest
            (pktSize % u16Range) (hdrSize % u16Range) (payloadSize % u16Range)
            rtph.marker false
          let r5'' :=
            if rtph.timestamp ≠ resTS.preExtendedHighest % u32Range then
              { r5' with highestTime := packetTime }
            else r5'
          (r5'',
           { hasLoss := 1 < gapSN,
             lossStartInclusive := if 1 < gapSN then (resSN.preExtendedHighest + 1) % u64Range else 0,
             lossEndExclusive := if 1 < gapSN then resSN.extendedVal else 0,
             extSequenceNumber := resSN.extendedVal, extTimestamp := resTS.extendedVal },
           false)
      if earlyReturn then (r6, flowState)
      else if flowState.isDuplicate then (r6, flowState)
      else if payloadSize = 0 then
        ({ r6 with packetsPadding := r6.packetsPadding + 1,
                   bytesPadding := r6.bytesPadding + pktSize,
                   headerBytesPadding := r6.headerBytesPadding + hdrSize }, flowState)
      else
        let r7 := { r6 with bytes := r6.bytes + pktSize,
                            headerBytes := r6.headerBytes + hdrSize,
                            frames := if rtph.marker then r6.frames + 1 else r6.frames }
        (r7.updateJitter rtph packetTime, flowState)

/-- `NewSnapshotId` (src/unnamed/part_000 lines 346-363). -/
def newSnapshotId (r : RTPStats) (now : ℤ) : RTPStats × ℕ :=
  let id := r.nextSnapshotId
  let r1 :=
    if r.initialized then
      let extStartSN := r.sequenceNumber.getExtendedStart
      { r with snapshots := fun i =>
          if i = id then
            some { startTime := now, extStartSN := extStartSN,
                   extStartSNOverridden := extStartSN }
          else r.snapshots i }
    else r
  ({ r1 with nextSnapshotId := r1.nextSnapshotId + 1 }, id)

/-- The private `maybeAdjustFirstPacketTime` (src/unnamed/part_000 lines
879-923). The `float64` seconds-to-`time.Duration` conversion is modelled
by exact integer nanoseconds. -/
def maybeAdjustFirstPacketTimeLocked (r : RTPStats) (ets : ℕ) (now : ℤ) : RTPStats :=
  if now - r.startTime > firstPacketTimeAdjustWindow then r
  else
    let samplesDiff := toInt64 (u64sub ets r.timestamp.getExtendedStart)
    if samplesDiff < 0 then r -- out-of-order, skip
    else
      let samplesDuration : ℤ := samplesDiff * 1000000000 / r.params.clockRate
      let firstTime := now - samplesDuration
      if firstTime < r.firstTime then
        if r.firstTime - firstTime > firstPacketTimeAdjustThreshold then
          r -- adjustment too big, ignoring
        else
          { r with firstTime := firstTime }
      else r

/-- `MaybeAdjustFirstPacketTime` (src/unnamed/part_000 lines 870-877).
It is not guarded by `endTime`. -/
def maybeAdjustFirstPacketTime (r : RTPStats) (srData : Option RTCPSenderReportData)
    (now : ℤ) : RTPStats :=
  match srData with
  | none => r
  | some sr => r.maybeAdjustFirstPacketTimeLocked sr.rtpTimestampExt now

/-- `SetRtcpSenderReportData` (src/unnamed/part_000 lines 925-990).
Note: it is not guarded by `endTime`. -/
def setRtcpSenderReportData (r : RTPStats) (srData : Option RTCPSenderReportData)
    (now : ℤ) : RTPStats :=
  match srData with
  | none => r
  | some sr =>
      if !r.initialized then r
      else
      let anachronous : Bool :=
        match r.srNewest with
        | some newest => decide (newest.ntpTimestamp > sr.ntpTimestamp)
        | none => false
      if anachronous then
        r -- anachronous sender report
      else
        let tsCycles : ℕ :=
          match r.srNewest with
          | none => 0
          | some newest =>
              let c := newest.rtpTimestampExt - newest.rtpTimestampExt % u32Range
              if uSub u32Range sr.rtpTimestamp newest.rtpTimestamp < 2 ^ 31 ∧
                  sr.rtpTimestamp < newest.rtpTimestamp then
                (c + 2 ^ 32) % u64Range
              else c
        let pcCycles : ℕ :=
          match r.srNewest with
          | none => 0
          | some newest =>
              let c := newest.packetCountExt - newest.packetCountExt % u32Range
              if uSub u32Range sr.packetCount newest.packetCount < 2 ^ 31 ∧
                  sr.packetCount < newest.packetCount then
                (c + 2 ^ 32) % u64Range
              else c
        let srDataCopy := { sr with
          rtpTimestampExt := (sr.rtpTimestamp + tsCycles) % u64Range
          packetCountExt := (sr.packetCount + pcCycles) % u64Range }
        let r1 := r.maybeAdjustFirstPacketTimeLocked srDataCopy.rtpTimestampExt now
        let regressed : Bool :=
          match r1.srNewest with
          | some newest => decide (srDataCopy.rtpTimestampExt < newest.rtpTimestampExt)
          | none => false
        let r2 :=
          if regressed then
            { r1 with srFirst := none } -- out-of-order sender report, resetting
          else r1
        let r3 := { r2 with srNewest := some srDataCopy }
        if (r3.srFirst).isNone then { r3 with srFirst := some srDataCopy } else r3

end RTPStats

/-- A non-padding test packet used in the literal scenarios: sequence
number `sn`, a per-sequence-number RTP timestamp, no marker, a 12-byte
header. -/
def scenarioHeader (sn : ℕ) : RTPHeader :=
  { sequenceNumber := sn, timestamp := 3000 * sn, marker := false, marshalSize := 12 }

/-- Run a fresh stats engine (clock rate 90000) over non-padding packets
with the given sequence numbers (payload 1000 bytes, no padding),
collecting the flow states. -/
def runScenario (sns : List ℕ) : RTPStats × List RTPFlowState :=
  sns.foldl (fun acc sn =>
    let (r', fs) := (acc.1).update (scenarioHeader sn) 1000 0 0 0
    (r', acc.2 ++ [fs])) (newRTPStats { clockRate := 90000 }, [])

/-! ## Forward stats (src/pkg/sfu/forwardstats.go lines 14-47)

Sequential model of `ForwardStats`: instants are integer nanoseconds,
`left.UnixMilli()` is the floored millisecond, and the
`lastLeftMs.CompareAndSwap(lastMs, leftMs)` always succeeds because the
swapped-out value was loaded in the same (single-threaded) call. The
samples handed to the latency aggregate are recorded as a list of
`(arrival, transit)` pairs. -/
structure ForwardStats where
  lastLeftMs : ℤ := 0
  samples : List (ℤ × ℤ) := []
  deriving Repr, DecidableEq

/-- `ForwardStats.Update(arrival, left)` (src/pkg/sfu/forwardstats.go
lines 31-47). -/
def ForwardStats.update (s : ForwardStats) (arrival left : ℤ) : ForwardStats :=
  let transit := left - arrival
  -- ignore if transit is too large or negative
  if transit < 0 ∨ transit > 5 * 1000000000 then s
  else
    let leftMs := Int.fdiv left 1000000
    if leftMs < s.lastLeftMs then s
    else { lastLeftMs := leftMs, samples := s.samples ++ [(arrival, transit)] }

/-- The amended recording rule for C8: a sample is recorded exactly when
the transit time is within [0, 5s] and the departure millisecond is at
least (not strictly greater than) the last recorded one. -/
def forwardStatsRecords (s : ForwardStats) (arrival left : ℤ) : Prop :=
  0 ≤ left - arrival ∧ left - arrival ≤ 5 * 1000000000 ∧
    s.lastLeftMs ≤ Int.fdiv left 1000000

instance (s : ForwardStats) (arrival left : ℤ) :
    Decidable (forwardStatsRecords s arrival left) := by
  unfold forwardStatsRecords; infer_instance

/-! ## Layer offsets of the stream tracker manager
(src/pkg/utils/opsqueue.go lines 666-784) -/

/-- Modelled from the spec: `DefaultMaxLayerSpatial` is declared in the
`buffer` package, which is not among the sources. The spec has spatial
layers `0..MaxSpatial` and three PLI-throttle tiers {low, mid, high},
i.e. `MaxSpatial = 2`; none of the verified properties depend on the
exact value. -/
def DefaultMaxLayerSpatial : ℕ := 2

/-- The two error cases of `GetReferenceLayerRTPTimestamp`
("invalid layer, target: ..., reference: ..." and
"offset unavailable, target: ..., reference: ..."). -/
inductive LayerTsError where
  | invalidLayer
  | offsetUnavailable
  deriving Repr, DecidableEq

/-- The fields of `StreamTrackerManager` that
`GetReferenceLayerRTPTimestamp` reads; `layerOffsets` is the
`[DefaultMaxLayerSpatial+1][DefaultMaxLayerSpatial+1]uint32` matrix. -/
structure StreamTrackerManager where
  isSVC : Bool
  clockRate : ℕ
  layerOffsets : ℕ → ℕ → ℕ

/-- `GetReferenceLayerRTPTimestamp` (src/pkg/utils/opsqueue.go lines
765-784); layer indices are `int32`, the returned timestamp is `uint32`. -/
def StreamTrackerManager.getReferenceLayerRTPTimestamp (s : StreamTrackerManager)
    (ts : ℕ) (layer referenceLayer : ℤ) : Except LayerTsError ℕ :=
  if layer < 0 ∨ (DefaultMaxLayerSpatial + 1 : ℤ) ≤ layer ∨
      referenceLayer < 0 ∨ (DefaultMaxLayerSpatial + 1 : ℤ) ≤ referenceLayer then
    .error .invalidLayer
  else if s.isSVC then
    -- there is only one stream in SVC
    .ok ts
  else if layer ≠ referenceLayer ∧
      s.layerOffsets referenceLayer.toNat layer.toNat = 0 then
    .error .offsetUnavailable
  else
    .ok ((ts + s.layerOffsets referenceLayer.toNat layer.toNat) % u32Range)

/-- C9's claim, written from the spec's words: an "invalid layer" error
when `layer` or `ref` is outside `0..MaxSpatial`; otherwise the input
`ts` when the manager is SVC; otherwise an "offset unavailable" error
when `layer ≠ ref` and `layerOffsets[ref][layer]` is zero; otherwise
`ts + layerOffsets[ref][layer]` (a `uint32` sum). -/
def getReferenceLayerRTPTimestampSpec (s : StreamTrackerManager)
    (ts : ℕ) (layer referenceLayer : ℤ) : Except LayerTsError ℕ :=
  if ¬ (0 ≤ layer ∧ layer ≤ DefaultMaxLayerSpatial ∧
        0 ≤ referenceLayer ∧ referenceLayer ≤ DefaultMaxLayerSpatial) then
    .error .invalidLayer
  else if s.isSVC then .ok ts
  else if layer ≠ referenceLayer ∧
      s.layerOffsets referenceLayer.toNat layer.toNat = 0 then
    .error .offsetUnavailable
  else .ok ((ts + s.layerOffsets referenceLayer.toNat layer.toNat) % u32Range)

/-! ## NACK sequencer (src/pkg/sfu/forwardstats.go lines 1041-1275)

Go's `seq []*packetMeta` holds pointers into the circular `meta` arena;
pointers are modelled as arena indices (`seq : ℕ → Option ℕ`), which
preserves the aliasing: overwriting an arena entry is visible through
every slot still pointing at it. The wall-clock-derived `getRefTime()`
(milliseconds since the sequencer start, as `uint32`) becomes an explicit
`refTime` argument. The defensively copied `codecBytes`/`ddBytes`
payloads carry no information the verified properties mention and are
omitted. -/

/-- `defaultRtt`. -/
def defaultRtt : ℕ := 70

/-- `ignoreRetransmission` (milliseconds). -/
def ignoreRetransmission : ℕ := 100

/-- `maxAck`. -/
def maxAck : ℕ := 3

/-- `packetMeta` (src/pkg/sfu/forwardstats.go lines 1042-1103). -/
structure PacketMeta where
  sourceSeqNo : ℕ := 0
  targetSeqNo : ℕ := 0
  timestamp : ℕ := 0
  marker : Bool := false
  lastNack : ℕ := 0
  nacked : ℕ := 0
  layer : ℤ := 0
  deriving Repr, DecidableEq

/-- `sequencer` (src/pkg/sfu/forwardstats.go lines 1106-1130). -/
structure Sequencer where
  init : Bool := false
  max : ℕ
  maxTrack : ℕ
  seq : ℕ → Option ℕ
  meta : ℕ → PacketMeta
  metaWritePtr : ℕ := 0
  step : ℕ := 0
  headSN : ℕ := 0
  rtt : ℕ := defaultRtt

/-- `newSequencer(maxTrack, maxPadding, ...)`. -/
def newSequencer (maxTrack maxPadding : ℕ) : Sequencer :=
  { max := maxTrack + maxPadding, maxTrack := maxTrack,
    seq := fun _ => none, meta := fun _ => {} }

namespace Sequencer

/-- `setRTT` (src/pkg/sfu/forwardstats.go lines 1132-1141). -/
def setRtt (s : Sequencer) (rtt : ℕ) : Sequencer :=
  if rtt = 0 then { s with rtt := defaultRtt } else { s with rtt := rtt }

/-- `wrap` (src/pkg/sfu/forwardstats.go lines 1260-1270): bring a slot
index into `[0, max)` (the Go add/subtract loops compute the Euclidean
remainder whenever `max > 0`). -/
def wrap (s : Sequencer) (slot : ℤ) : ℕ := (slot.emod s.max).toNat

/-- The retransmission-pacing threshold
`uint32(math.Min(float64(ignoreRetransmission), float64(2*rtt)))`. -/
def threshold (s : Sequencer) : ℕ := min ignoreRetransmission ((2 * s.rtt) % u32Range)

/-- The body of `getSlot` past the first-use initialization
(src/pkg/sfu/forwardstats.go lines 1194-1225): `uint16` differences
decide duplicate / out-of-order / in-order; the in-order branch
invalidates the intervening slots and advances `step`. -/
def getSlotInited (s : Sequencer) (offSn : ℕ) : Sequencer × Option ℕ :=
  let diff := uSub u16Range offSn s.headSN
  if diff = 0 then
    (s, none) -- duplicate
  else if diff > 2 ^ 15 then
    -- out-of-order
    let back := uSub u16Range s.headSN offSn
    if s.max ≤ back then (s, none) -- old packet, can not be sequenced
    else (s, some (s.wrap ((s.step : ℤ) - back - 1)))
  else
    let cleared := (List.range (diff - 1)).foldl
      (fun f (idx : ℕ) => fun j => if j = s.wrap ((s.step : ℤ) + (idx : ℤ)) then none else f j)
      s.seq
    ({ s with headSN := offSn, seq := cleared, step := s.wrap ((s.step : ℤ) + diff) },
     some (s.wrap ((s.step : ℤ) + diff - 1)))

/-- `getSlot` (src/pkg/sfu/forwardstats.go lines 1189-1226): seed
`headSN` on first use, then classify. -/
def getSlot (s : Sequencer) (offSn : ℕ) : Sequencer × Option ℕ :=
  getSlotInited
    (if !s.init then { s with headSN := uSub u16Range offSn 1, init := true } else s) offSn

/-- The write phase of `push`: store `m` at the arena write pointer,
point `slot` at it, and advance the pointer circularly over
`meta[maxTrack]`. -/
def pushWrite (s1 : Sequencer) (m : PacketMeta) (slot : ℕ) : Sequencer :=
  { s1 with
    meta := fun i => if i = s1.metaWritePtr then m else s1.meta i
    seq := fun i => if i = slot then some s1.metaWritePtr else s1.seq i
    metaWritePtr :=
      if s1.maxTrack ≤ s1.metaWritePtr + 1 then s1.metaWritePtr + 1 - s1.maxTrack
      else s1.metaWritePtr + 1 }

/-- `push` (src/pkg/sfu/forwardstats.go lines 1143-1176): write a fresh
meta record at `metaWritePtr`, point the slot at it, stamp
`lastNack := refTime` to delay retransmissions after the original
transmission. -/
def push (s : Sequencer) (sn offSn ts : ℕ) (marker : Bool) (layer : ℤ)
    (refTime : ℕ) : Sequencer :=
  match s.getSlot offSn with
  | (s1, none) => s1
  | (s1, some slot) =>
      pushWrite s1
        { sourceSeqNo := sn, targetSeqNo := offSn, timestamp := ts,
          marker := marker, layer := layer, lastNack := refTime, nacked := 0 }
        slot

/-- `pushPadding` (src/pkg/sfu/forwardstats.go lines 1178-1187). -/
def pushPadding (s : Sequencer) (offSn : ℕ) : Sequencer :=
  match s.getSlot offSn with
  | (s1, none) => s1
  | (s1, some slot) => { s1 with seq := fun i => if i = slot then none else s1.seq i }

/-- One queried sequence number of `getPacketsMeta`
(src/pkg/sfu/forwardstats.go lines 1228-1259): locate the slot, skip if
empty / mismatching / capped / too soon, otherwise bump `nacked`, stamp
`lastNack` and emit the updated record. -/
def getOnePacketMeta (s : Sequencer) (sn refTime : ℕ) :
    Sequencer × Option PacketMeta :=
  let diff := uSub u16Range s.headSN sn
  if diff > 2 ^ 15 ∨ s.max ≤ diff then
    (s, none) -- out-of-order from head or too old
  else
    let slot := s.wrap ((s.step : ℤ) - diff - 1)
    match s.seq slot with
    | none => (s, none)
    | some idx =>
        let m := s.meta idx
        if m.targetSeqNo ≠ sn then (s, none)
        else if s.threshold < uSub u32Range refTime m.lastNack ∧ m.nacked < maxAck then
          let m' := { m with nacked := m.nacked + 1, lastNack := refTime }
          ({ s with meta := fun i => if i = idx then m' else s.meta i }, some m')
        else (s, none)

/-- `getPacketsMeta` over a request list (the loop of
src/pkg/sfu/forwardstats.go lines 1228-1259, in request order). -/
def getPacketsMeta : Sequencer → List ℕ → ℕ → Sequencer × List PacketMeta
  | s, [], _ => (s, [])
  | s, sn :: rest, refTime =>
      let (s1, m?) := getOnePacketMeta s sn refTime
      let (s2, ms) := getPacketsMeta s1 rest refTime
      (s2, m?.toList ++ ms)

end Sequencer

/-- A call into the sequencer, with the reference time (milliseconds
since sequencer start) at which it happens. -/
inductive SeqEvent where
  | push (sn offSn ts : ℕ) (marker : Bool) (layer : ℤ) (t : ℕ)
  | pushPadding (offSn : ℕ) (t : ℕ)
  | get (seqNos : List ℕ) (t : ℕ)
  deriving Repr, DecidableEq

/-- The reference time of an event. -/
def SeqEvent.time : SeqEvent → ℕ
  | .push _ _ _ _ _ t => t
  | .pushPadding _ t => t
  | .get _ t => t

/-- Whether an event is a `push` of target sequence number `sn`. -/
def SeqEvent.isPushOf (sn : ℕ) : SeqEvent → Bool
  | .push _ offSn _ _ _ _ => offSn = sn
  | _ => false

/-- Execute a sequence of sequencer calls, collecting every packet meta
record `getPacketsMeta` ever returns, in order. -/
def Sequencer.runEvents : Sequencer → List SeqEvent → Sequencer × List PacketMeta
  | s, [] => (s, [])
  | s, .push sn offSn ts marker layer t :: rest =>
      Sequencer.runEvents (s.push sn offSn ts marker layer t) rest
  | s, .pushPadding offSn _ :: rest =>
      Sequencer.runEvents (s.pushPadding offSn) rest
  | s, .get seqNos t :: rest =>
      let (s1, ms) := s.getPacketsMeta seqNos t
      let (s2, outs) := Sequencer.runEvents s1 rest
      (s2, ms ++ outs)

/-- The returned records for target sequence number `sn` (each carries
`lastNack = refTime` of the call that returned it). -/
def snReturns (sn : ℕ) (outs : List PacketMeta) : List PacketMeta :=
  outs.filter (fun m => m.targetSeqNo = sn)

/-- Consecutive times separated by strictly more than `thr`. -/
def spaced (thr : ℕ) : List ℕ → Prop
  | [] => True
  | [_] => True
  | a :: b :: rest => a + thr < b ∧ spaced thr (b :: rest)

/-- `timesMono t0 ts`: the times `ts` are nondecreasing and all at
least `t0`. -/
def timesMono : ℕ → List ℕ → Prop
  | _, [] => True
  | t0, t :: rest => t0 ≤ t ∧ timesMono t rest

instance timesMonoDecidable : ∀ t0 ts, Decidable (timesMono t0 ts)
  | _, [] => by unfold timesMono; infer_instance
  | t0, t :: rest =>
      have : Decidable (timesMono t rest) := timesMonoDecidable t rest
      by unfold timesMono; infer_instance

instance spacedDecidable (thr : ℕ) : ∀ ts, Decidable (spaced thr ts)
  | [] => by unfold spaced; infer_instance
  | [_] => by unfold spaced; infer_instance
  | _ :: b :: rest =>
      have : Decidable (spaced thr (b :: rest)) := spacedDecidable thr (b :: rest)
      by unfold spaced; infer_instance

/-- The times of the pushes of `sn` in a trace. -/
def pushTimesOf (sn : ℕ) (events : List SeqEvent) : List ℕ :=
  (events.filter (SeqEvent.isPushOf sn)).map SeqEvent.time

/-- The last element of a list, or `d` when empty. -/
def lastD : List ℕ → ℕ → ℕ
  | [], d => d
  | a :: l, _ => lastD l a

/-- The stamp times contributed to `sn`'s return history by one
`getPacketsMeta` iteration. -/
def snStamp (sn : ℕ) : Option PacketMeta → List ℕ
  | some m => if m.targetSeqNo = sn then [m.lastNack] else []
  | none => []

/-- No live (seq-reachable) arena entry carries target `sn`. -/
def Sequencer.NoSnEntry (sn : ℕ) (s : Sequencer) : Prop :=
  ∀ slot idx, s.seq slot = some idx → (s.meta idx).targetSeqNo ≠ sn

/-- Every live arena entry with target `sn` records `n` past NACK
returns and was last stamped at `last`; such an entry is unique. -/
def Sequencer.SnClauses (sn : ℕ) (s : Sequencer) (n last : ℕ) : Prop :=
  (∀ slot idx, s.seq slot = some idx → (s.meta idx).targetSeqNo = sn →
     (s.meta idx).nacked = n ∧ (s.meta idx).lastNack = last) ∧
  (∀ slot idx slot' idx', s.seq slot = some idx → s.seq slot' = some idx' →
     (s.meta idx).targetSeqNo = sn → (s.meta idx').targetSeqNo = sn → idx = idx')

/-- Invariant for the NACK cap and pacing of a single target sequence
number `sn`: `pushedAt` is the time of the (unique) push of `sn` seen so
far, `rts` the stamp times of its returns, `tlo` a lower bound on all
future reference times. -/
def Sequencer.SnInv (sn thr : ℕ) (s : Sequencer) (pushedAt : Option ℕ)
    (rts : List ℕ) (tlo : ℕ) : Prop :=
  match pushedAt with
  | none => rts = [] ∧ s.NoSnEntry sn
  | some tp =>
      rts.length ≤ maxAck ∧ spaced thr (tp :: rts) ∧
      lastD rts tp ≤ tlo ∧
      s.SnClauses sn rts.length (lastD rts tp)

/-! ## Ops queue (src/pkg/utils/opsqueue.go lines 26-118)

Closures are identified by a token (`ℕ`); the deque of pending closures
is a list, the capacity-1 wake channel has no observable effect on which
closures run and is omitted. -/
structure OpsQueue where
  flushOnStop : Bool
  ops : List ℕ := []
  isStarted : Bool := false
  isStopped : Bool := false
  deriving Repr, DecidableEq

/-- `OpsQueue.Enqueue` (src/pkg/utils/opsqueue.go lines 80-95): after
`Stop`, the closure is dropped without being queued. -/
def OpsQueue.enqueue (oq : OpsQueue) (op : ℕ) : OpsQueue :=
  if oq.isStopped then oq else { oq with ops := oq.ops ++ [op] }

/-- `OpsQueue.Stop` (src/pkg/utils/opsqueue.go lines 67-78). -/
def OpsQueue.stop (oq : OpsQueue) : OpsQueue := { oq with isStopped := true }

/-- The closures the consumer (`process`, src/pkg/utils/opsqueue.go lines
97-118) still executes once the queue is stopped: the backlog when
`FlushOnStop` is set, nothing otherwise. Every closure `process` ever
executes is popped from the deque. -/
def OpsQueue.runsAfterStop (oq : OpsQueue) : List ℕ :=
  if oq.flushOnStop then oq.ops else []

end LiveKit

namespace LiveKit

set_option maxRecDepth 8000

/-- C1: For a u16 wrap-around extender, feeding Update the sequence
65530, 65533, 0, 3 returns extended values 65530, 65533, 65536, 65539 in
that order, and no call reports isRestart=true. -/
theorem C1_wraparound_u16_wrap :
    ((newWrapAround16.runUpdates [65530, 65533, 0, 3]).2.map
        WrapAroundUpdateResult.extendedVal = [65530, 65533, 65536, 65539]) ∧
    ((newWrapAround16.runUpdates [65530, 65533, 0, 3]).2.map
        WrapAroundUpdateResult.isRestart = [false, false, false, false]) := by
  decide

/-- C2: For a u16 wrap-around extender, feeding Update the sequence 10
then 9, the first call returns extendedVal=10 and the second call returns
isRestart=true, preExtendedStart=10, and extendedVal=9. -/
theorem C2_wraparound_u16_early_restart :
    ((newWrapAround16.update 10).2.extendedVal = 10) ∧
    (((newWrapAround16.update 10).1.update 9).2.isRestart = true) ∧
    (((newWrapAround16.update 10).1.update 9).2.preExtendedStart = 10) ∧
    (((newWrapAround16.update 10).1.update 9).2.extendedVal = 9) := by
  decide

/-- C3: Starting a fresh RTP Stats Engine and feeding non-padding packets
with sequence numbers 100, 101, 102, 113, 108: after the packet with SN
113, packetsLost equals 10 and its flow state has hasLoss=true with
lossStartInclusive=103 and lossEndExclusive=113; after the packet with SN
108, packetsLost equals 9, packetsOutOfOrder equals 1, and its flow state
has hasLoss=false. -/
theorem C3_loss_then_ooo_recovery :
    ((runScenario [100, 101, 102, 113]).1.packetsLost = 10) ∧
    ((runScenario [100, 101, 102, 113]).2.map
        (fun f => (f.hasLoss, f.lossStartInclusive, f.lossEndExclusive)) =
      [(false, 0, 0), (false, 0, 0), (false, 0, 0), (true, 103, 113)]) ∧
    ((runScenario [100, 101, 102, 113, 108]).1.packetsLost = 9) ∧
    ((runScenario [100, 101, 102, 113, 108]).1.packetsOutOfOrder = 1) ∧
    (((runScenario [100, 101, 102, 113, 108]).2.getLast?).map RTPFlowState.hasLoss =
      some false) := by
  decide

/-- C5: Starting a fresh RTP Stats Engine and feeding non-padding packets
with sequence numbers 200, 201, 201 (same timestamp and size for the two
201s): the third Update returns isDuplicate=true, afterwards
packetsDuplicate equals 1, and the extender's extended highest sequence
number is unchanged by the third call. -/
theorem C5_duplicate_detection :
    (((runScenario [200, 201, 201]).2.getLast?).map RTPFlowState.isDuplicate =
      some true) ∧
    ((runScenario [200, 201, 201]).1.packetsDuplicate = 1) ∧
    ((runScenario [200, 201, 201]).1.sequenceNumber.getExtendedHighest =
      (runScenario [200, 201]).1.sequenceNumber.getExtendedHighest) := by
  decide

/-- C4 counterexample: the claim "no mutator changes any recorded state
after Stop" fails — `SetRtcpSenderReportData` has no `endTime` guard.
Start a stream (one packet), stop it, then ingest a sender report: the
stored newest sender report changes from `none` to a value. -/
theorem C4_counterexample :
    (((runScenario [100]).1.stop 5).endTime).isSome = true ∧
    ((runScenario [100]).1.stop 5).srNewest = none ∧
    ((((runScenario [100]).1.stop 5).setRtcpSenderReportData
        (some { rtpTimestamp := 1000, ntpTimestamp := 123, packetCount := 1 })
        6).srNewest).isSome = true := by
  decide

/-- C4 amended: after Stop (endTime set), `Update` is a no-op that
returns a flow state with isNotHandled=true, and the `endTime`-guarded
mutators (here `UpdateNack`) leave the state unchanged; however
`SetRtcpSenderReportData` and `MaybeAdjustFirstPacketTime` carry no
`endTime` guard and can still mutate the engine. -/
theorem C4_amended (r : RTPStats) (rtph : RTPHeader) (payloadSize paddingSize : ℕ)
    (packetTime now : ℤ) (n : ℕ) (h : (r.endTime).isSome = true) :
    r.update rtph payloadSize paddingSize packetTime now =
      (r, { isNotHandled := true }) ∧
    r.updateNack n = r := by
  unfold RTPStats.update RTPStats.updateNack
  simp [h]

/-- Witness for C4 amended at a concrete stopped engine. -/
theorem C4_amended_witness :
    (((runScenario [100]).1.stop 5).endTime).isSome = true ∧
    (((runScenario [100]).1.stop 5).update (scenarioHeader 101) 1000 0 0 0 =
       ((runScenario [100]).1.stop 5, { isNotHandled := true }) ∧
     ((runScenario [100]).1.stop 5).updateNack 2 = (runScenario [100]).1.stop 5) :=
  ⟨by decide, C4_amended _ _ 1000 0 0 0 2 (by decide)⟩

/-- C7 counterexample: an in-order Update with gapSN = 2 adds its count
to histogram bin 0 (the bin for one missing packet), not to bin
min(gapSN−1, 100) = 1 as the claim states. -/
theorem C7_counterexample :
    ((runScenario [100, 102]).1.gapHistogram (min (2 - 1) 100) = 0) ∧
    ((runScenario [100, 102]).1.gapHistogram 0 = 1) := by
  decide

/-- C7 amended: for every sequence-number gap `gapSN > 1` (the argument
`Update` passes to the gap histogram in its in-order branch), exactly one
count is added, in the bin with index min(gapSN−2, 100). -/
theorem C7_amended (r : RTPStats) (gap : ℤ) (h : 1 < gap) :
    (r.updateGapHistogram gap).gapHistogram = fun i =>
      if i = min (gap - 2).toNat 100 then r.gapHistogram i + 1
      else r.gapHistogram i := by
  unfold RTPStats.updateGapHistogram
  have h2 : ¬ gap < 2 := by omega
  rw [if_neg h2]
  by_cases hbig : gap - 1 > (GapHistogramNumBins : ℕ)
  · rw [if_pos hbig]
    have hGB : (GapHistogramNumBins : ℤ) = 101 := by norm_num [GapHistogramNumBins]
    have hmin : min (gap - 2).toNat 100 = 100 := by
      have h101 : (101 : ℤ) ≤ gap - 2 := by omega
      have : (101 : ℕ) ≤ (gap - 2).toNat := by omega
      omega
    have hidx : GapHistogramNumBins - 1 = 100 := by norm_num [GapHistogramNumBins]
    rw [hidx, hmin]
  · rw [if_neg hbig]
    have hGB : (GapHistogramNumBins : ℤ) = 101 := by norm_num [GapHistogramNumBins]
    have hle : gap - 1 ≤ 101 := by omega
    have hmin : min (gap - 2).toNat 100 = (gap - 2).toNat := by
      have : (gap - 2).toNat ≤ 100 := by omega
      omega
    have hidx : (gap - 1 - 1).toNat = (gap - 2).toNat := by omega
    rw [hmin, hidx]

/-- Witness for C7 amended at gap 5 on a fresh engine. -/
theorem C7_amended_witness :
    (1 : ℤ) < 5 ∧
    ((newRTPStats { clockRate := 90000 }).updateGapHistogram 5).gapHistogram =
      (fun i => if i = min ((5 : ℤ) - 2).toNat 100 then
          (newRTPStats { clockRate := 90000 }).gapHistogram i + 1
        else (newRTPStats { clockRate := 90000 }).gapHistogram i) :=
  ⟨by decide, C7_amended (newRTPStats { clockRate := 90000 }) 5 (by decide)⟩

/-- C8 counterexample: a sample whose departure millisecond equals the
last recorded one IS recorded (the code rejects only strictly older
departure times): after recording (arrival 0, left 1ms), the sample
(arrival 0.5ms, left 1ms) with equal departure millisecond is also
recorded, leaving two samples where the claim allows one. -/
theorem C8_counterexample :
    ((ForwardStats.update
        (ForwardStats.update {} 0 1000000) 500000 1000000).samples).length = 2 := by
  decide

/-- C8 amended: `ForwardStats.Update(arrival, left)` records a latency
sample if and only if the transit time `left − arrival` is within
[0, 5s] and `left`'s millisecond timestamp is at least (ties included)
that of every previously recorded sample; otherwise the state is
unchanged. -/
theorem C8_amended (s : ForwardStats) (arrival left : ℤ) :
    (forwardStatsRecords s arrival left ∧
       ForwardStats.update s arrival left =
         { lastLeftMs := Int.fdiv left 1000000,
           samples := s.samples ++ [(arrival, left - arrival)] }) ∨
    (¬ forwardStatsRecords s arrival left ∧
       ForwardStats.update s arrival left = s) := by
  unfold ForwardStats.update forwardStatsRecords
  by_cases h1 : left - arrival < 0 ∨ left - arrival > 5 * 1000000000
  · right
    refine ⟨by omega, ?_⟩
    simp only [h1, if_true]
  · by_cases h2 : Int.fdiv left 1000000 < s.lastLeftMs
    · right
      refine ⟨by omega, ?_⟩
      simp only [h1, if_false, h2, if_true]
    · left
      refine ⟨by omega, ?_⟩
      simp only [h1, if_false, h2]

/-- C9: `GetReferenceLayerRTPTimestamp(ts, layer, ref)` returns an
"invalid layer" error when `layer` or `ref` is outside 0..MaxSpatial;
otherwise the input `ts` when the manager is SVC; otherwise an "offset
unavailable" error when `layer ≠ ref` and `layerOffsets[ref][layer]` is
zero; otherwise `ts + layerOffsets[ref][layer]`. -/
theorem C9_reference_layer_timestamp (s : StreamTrackerManager) (ts : ℕ)
    (layer referenceLayer : ℤ) :
    s.getReferenceLayerRTPTimestamp ts layer referenceLayer =
      getReferenceLayerRTPTimestampSpec s ts layer referenceLayer := by
  unfold StreamTrackerManager.getReferenceLayerRTPTimestamp
    getReferenceLayerRTPTimestampSpec
  have hiff :
      (layer < 0 ∨ (DefaultMaxLayerSpatial + 1 : ℤ) ≤ layer ∨
        referenceLayer < 0 ∨ (DefaultMaxLayerSpatial + 1 : ℤ) ≤ referenceLayer) ↔
      ¬ (0 ≤ layer ∧ layer ≤ DefaultMaxLayerSpatial ∧
          0 ≤ referenceLayer ∧ referenceLayer ≤ DefaultMaxLayerSpatial) := by
    omega
  by_cases h : layer < 0 ∨ (DefaultMaxLayerSpatial + 1 : ℤ) ≤ layer ∨
      referenceLayer < 0 ∨ (DefaultMaxLayerSpatial + 1 : ℤ) ≤ referenceLayer
  · rw [if_pos h, if_pos (hiff.mp h)]
  · rw [if_neg h, if_neg (fun hc => h (hiff.mpr hc))]

/-- C10: a closure passed to `Enqueue` after `Stop()` is silently dropped
and never executed, regardless of `FlushOnStop`: the enqueue leaves the
queue unchanged, so the closure is neither in the backlog nor among the
closures the consumer still runs. -/
theorem C10_enqueue_after_stop_dropped (oq : OpsQueue) (op : ℕ)
    (h1 : oq.isStopped = true) (h2 : op ∉ oq.ops) :
    oq.enqueue op = oq ∧ op ∉ (oq.enqueue op).runsAfterStop := by
  unfold OpsQueue.enqueue OpsQueue.runsAfterStop
  rw [if_pos h1]
  refine ⟨rfl, ?_⟩
  by_cases hf : oq.flushOnStop = true
  · simpa [hf] using h2
  · simp [Bool.not_eq_true] at hf
    simp [hf]

/-- Witness for C10 on a concrete stopped queue (flush enabled). -/
theorem C10_enqueue_after_stop_dropped_witness :
    (({ flushOnStop := true, ops := [3], isStopped := true } : OpsQueue).isStopped = true ∧
      7 ∉ ({ flushOnStop := true, ops := [3], isStopped := true } : OpsQueue).ops) ∧
    (({ flushOnStop := true, ops := [3], isStopped := true } : OpsQueue).enqueue 7 =
        { flushOnStop := true, ops := [3], isStopped := true } ∧
      7 ∉ (({ flushOnStop := true, ops := [3], isStopped := true } : OpsQueue).enqueue 7).runsAfterStop) :=
  ⟨⟨by decide, by decide⟩,
    C10_enqueue_after_stop_dropped { flushOnStop := true, ops := [3], isStopped := true } 7
      (by decide) (by decide)⟩

namespace Sequencer

lemma clear_foldl_subset (l : List ℕ) (g : ℕ → ℕ) :
    ∀ (f : ℕ → Option ℕ) (i idx : ℕ),
      (l.foldl (fun acc j0 => fun j => if j = g j0 then none else acc j) f) i = some idx →
      f i = some idx := by
  induction l with
  | nil => intro f i idx h; exact h
  | cons a l ih =>
      intro f i idx h
      have h1 := ih _ i idx h
      by_cases hi : i = g a
      · simp [hi] at h1
      · simpa [hi] using h1

lemma getSlotInited_spec (s : Sequencer) (o : ℕ) :
    ((s.getSlotInited o).1).meta = s.meta ∧ ((s.getSlotInited o).1).rtt = s.rtt ∧
      ∀ slot idx, ((s.getSlotInited o).1).seq slot = some idx → s.seq slot = some idx := by
  unfold getSlotInited
  dsimp only
  split
  · exact ⟨rfl, rfl, fun _ _ h => h⟩
  · split
    · split
      · exact ⟨rfl, rfl, fun _ _ h => h⟩
      · exact ⟨rfl, rfl, fun _ _ h => h⟩
    · exact ⟨rfl, rfl, fun slot idx h => clear_foldl_subset _ _ _ _ _ h⟩

lemma getSlot_spec (s : Sequencer) (o : ℕ) :
    ((s.getSlot o).1).meta = s.meta ∧ ((s.getSlot o).1).rtt = s.rtt ∧
      ∀ slot idx, ((s.getSlot o).1).seq slot = some idx → s.seq slot = some idx := by
  unfold getSlot
  by_cases hinit : s.init
  · simp only [hinit, Bool.not_true, if_neg (by simp : ¬ (false = true))]
    exact getSlotInited_spec s o
  · simp only [Bool.not_eq_true] at hinit
    simp only [hinit, Bool.not_false, if_pos rfl]
    exact getSlotInited_spec _ o

end Sequencer

namespace Sequencer

lemma lastD_concat (xs : List ℕ) (y : ℕ) : ∀ d, lastD (xs ++ [y]) d = y := by
  induction xs with
  | nil => intro d; rfl
  | cons a l ih => intro d; simpa [lastD] using ih a

lemma spaced_snoc (thr : ℕ) (x : ℕ) (xs : List ℕ) (y : ℕ)
    (h : spaced thr (x :: xs)) (hy : lastD xs x + thr < y) :
    spaced thr (x :: (xs ++ [y])) := by
  induction xs generalizing x with
  | nil => exact ⟨hy, trivial⟩
  | cons a l ih =>
      obtain ⟨h1, h2⟩ := h
      exact ⟨h1, ih a h2 hy⟩

lemma SnInv_mono (sn thr : ℕ) (s : Sequencer) (pushedAt : Option ℕ)
    (rts : List ℕ) (tlo tlo' : ℕ) (hle : tlo ≤ tlo')
    (h : s.SnInv sn thr pushedAt rts tlo) : s.SnInv sn thr pushedAt rts tlo' := by
  cases pushedAt with
  | none => exact h
  | some tp =>
      obtain ⟨h1, h2, h3, h4⟩ := h
      exact ⟨h1, h2, le_trans h3 hle, h4⟩

lemma NoSnEntry_transport (sn : ℕ) (s s' : Sequencer)
    (hmeta : s'.meta = s.meta)
    (hsub : ∀ slot idx, s'.seq slot = some idx → s.seq slot = some idx)
    (h : s.NoSnEntry sn) : s'.NoSnEntry sn := by
  intro slot idx hs
  rw [hmeta]
  exact h slot idx (hsub slot idx hs)

lemma SnClauses_transport (sn : ℕ) (s s' : Sequencer) (n last : ℕ)
    (hmeta : s'.meta = s.meta)
    (hsub : ∀ slot idx, s'.seq slot = some idx → s.seq slot = some idx)
    (h : s.SnClauses sn n last) : s'.SnClauses sn n last := by
  obtain ⟨h1, h2⟩ := h
  constructor
  · intro slot idx hs ht
    rw [hmeta] at ht ⊢
    exact h1 slot idx (hsub slot idx hs) ht
  · intro slot idx slot' idx' hs hs' ht ht'
    rw [hmeta] at ht ht'
    exact h2 slot idx slot' idx' (hsub slot idx hs) (hsub slot' idx' hs') ht ht'

lemma SnInv_transport (sn thr : ℕ) (s s' : Sequencer) (pushedAt : Option ℕ)
    (rts : List ℕ) (tlo : ℕ)
    (hmeta : s'.meta = s.meta)
    (hsub : ∀ slot idx, s'.seq slot = some idx → s.seq slot = some idx)
    (h : s.SnInv sn thr pushedAt rts tlo) : s'.SnInv sn thr pushedAt rts tlo := by
  cases pushedAt with
  | none => exact ⟨h.1, NoSnEntry_transport sn s s' hmeta hsub h.2⟩
  | some tp =>
      obtain ⟨h1, h2, h3, h4⟩ := h
      exact ⟨h1, h2, h3, SnClauses_transport sn s s' _ _ hmeta hsub h4⟩

end Sequencer

namespace Sequencer

/-- Membership through a `pushWrite`: a live pair is either the new
entry or an old one at an index other than the write pointer. -/
lemma pushWrite_reach (s1 : Sequencer) (m : PacketMeta) (slot : ℕ) :
    ∀ sl idx, (pushWrite s1 m slot).seq sl = some idx →
      idx = s1.metaWritePtr ∨ (idx ≠ s1.metaWritePtr ∧ s1.seq sl = some idx) := by
  intro sl idx hsl
  unfold pushWrite at hsl
  dsimp only at hsl
  by_cases hslot : sl = slot
  · left
    rw [if_pos hslot] at hsl
    exact (Option.some.inj hsl).symm
  · by_cases hip : idx = s1.metaWritePtr
    · exact Or.inl hip
    · right
      rw [if_neg hslot] at hsl
      exact ⟨hip, hsl⟩

lemma pushWrite_meta_new (s1 : Sequencer) (m : PacketMeta) (slot : ℕ) :
    (pushWrite s1 m slot).meta s1.metaWritePtr = m := by
  unfold pushWrite
  simp

lemma pushWrite_meta_old (s1 : Sequencer) (m : PacketMeta) (slot : ℕ)
    (idx : ℕ) (hip : idx ≠ s1.metaWritePtr) :
    (pushWrite s1 m slot).meta idx = s1.meta idx := by
  unfold pushWrite
  simp [hip]

/-- Writing an entry with a target other than `sn` preserves the
invariant. -/
lemma pushWrite_inv_ne (sn thr : ℕ) (s1 : Sequencer) (pushedAt : Option ℕ)
    (rts : List ℕ) (tlo : ℕ) (m : PacketMeta) (slot : ℕ)
    (hm : m.targetSeqNo ≠ sn) (h : s1.SnInv sn thr pushedAt rts tlo) :
    (pushWrite s1 m slot).SnInv sn thr pushedAt rts tlo := by
  cases pushedAt with
  | none =>
      refine ⟨h.1, ?_⟩
      intro sl idx hsl hT
      rcases pushWrite_reach s1 m slot sl idx hsl with hip | ⟨hip, hold⟩
      · rw [hip, pushWrite_meta_new] at hT
        exact hm hT
      · rw [pushWrite_meta_old s1 m slot idx hip] at hT
        exact h.2 sl idx hold hT
  | some tp =>
      obtain ⟨hlen, hsp, hlast, hcl, huniq⟩ := h
      refine ⟨hlen, hsp, hlast, ?_, ?_⟩
      · intro sl idx hsl hT
        rcases pushWrite_reach s1 m slot sl idx hsl with hip | ⟨hip, hold⟩
        · rw [hip, pushWrite_meta_new] at hT
          exact absurd hT hm
        · rw [pushWrite_meta_old s1 m slot idx hip] at hT ⊢
          exact hcl sl idx hold hT
      · intro sl idx sl' idx' hsl hsl' hT hT'
        rcases pushWrite_reach s1 m slot sl idx hsl with hip | ⟨hip, hold⟩
        · rw [hip, pushWrite_meta_new] at hT
          exact absurd hT hm
        · rcases pushWrite_reach s1 m slot sl' idx' hsl' with hip' | ⟨hip', hold'⟩
          · rw [hip', pushWrite_meta_new] at hT'
            exact absurd hT' hm
          · rw [pushWrite_meta_old s1 m slot idx hip] at hT
            rw [pushWrite_meta_old s1 m slot idx' hip'] at hT'
            exact huniq sl idx sl' idx' hold hold' hT hT'

/-- Writing the entry of `sn` itself (fresh, stamped at `t`) establishes
the pushed-state invariant. -/
lemma pushWrite_inv_self (sn thr : ℕ) (s1 : Sequencer) (m : PacketMeta) (slot t : ℕ)
    (hmN : m.nacked = 0) (hmL : m.lastNack = t)
    (hno : s1.NoSnEntry sn) :
    (pushWrite s1 m slot).SnInv sn thr (some t) [] t := by
  refine ⟨by simp [maxAck], trivial, le_refl t, ?_, ?_⟩
  · intro sl idx hsl hT
    rcases pushWrite_reach s1 m slot sl idx hsl with hip | ⟨hip, hold⟩
    · rw [hip, pushWrite_meta_new]
      exact ⟨hmN, hmL⟩
    · rw [pushWrite_meta_old s1 m slot idx hip] at hT
      exact absurd hT (hno sl idx hold)
  · intro sl idx sl' idx' hsl hsl' hT hT'
    rcases pushWrite_reach s1 m slot sl idx hsl with hip | ⟨hip, hold⟩
    · rcases pushWrite_reach s1 m slot sl' idx' hsl' with hip' | ⟨hip', hold'⟩
      · rw [hip, hip']
      · rw [pushWrite_meta_old s1 m slot idx' hip'] at hT'
        exact absurd hT' (hno sl' idx' hold')
    · rw [pushWrite_meta_old s1 m slot idx hip] at hT
      exact absurd hT (hno sl idx hold)

lemma push_rtt (s : Sequencer) (snq offSn ts : ℕ) (marker : Bool) (layer : ℤ) (t : ℕ) :
    (s.push snq offSn ts marker layer t).rtt = s.rtt := by
  obtain ⟨hm, hr, hs⟩ := getSlot_spec s offSn
  unfold push
  rcases hgs : s.getSlot offSn with ⟨s1, slot?⟩
  rw [hgs] at hr
  cases slot? with
  | none => exact hr
  | some slot => exact hr

lemma pushPadding_rtt (s : Sequencer) (offSn : ℕ) :
    (s.pushPadding offSn).rtt = s.rtt := by
  obtain ⟨hm, hr, hs⟩ := getSlot_spec s offSn
  unfold pushPadding
  rcases hgs : s.getSlot offSn with ⟨s1, slot?⟩
  rw [hgs] at hr
  cases slot? with
  | none => exact hr
  | some slot => exact hr

lemma getOne_rtt (s : Sequencer) (sn refTime : ℕ) :
    ((s.getOnePacketMeta sn refTime).1).rtt = s.rtt := by
  unfold getOnePacketMeta
  dsimp only
  split
  · rfl
  · split
    · rfl
    · split
      · rfl
      · split
        · rfl
        · rfl

/-- Pushing a target different from `sn` preserves the invariant. -/
lemma push_inv_ne (sn thr : ℕ) (s : Sequencer) (pushedAt : Option ℕ) (rts : List ℕ)
    (tlo : ℕ) (snq offSn ts : ℕ) (marker : Bool) (layer : ℤ) (t : ℕ)
    (hne : offSn ≠ sn) (h : s.SnInv sn thr pushedAt rts tlo) :
    (s.push snq offSn ts marker layer t).SnInv sn thr pushedAt rts tlo := by
  obtain ⟨hm, hr, hs⟩ := getSlot_spec s offSn
  unfold push
  rcases hgs : s.getSlot offSn with ⟨s1, slot?⟩
  rw [hgs] at hm hs
  have h1 : s1.SnInv sn thr pushedAt rts tlo := SnInv_transport sn thr s s1 _ _ _ hm hs h
  cases slot? with
  | none => exact h1
  | some slot => exact pushWrite_inv_ne sn thr s1 pushedAt rts tlo _ slot hne h1

/-- The (unique) push of `sn` itself establishes the pushed-state
invariant with its stamp time. -/
lemma push_inv_self (sn thr : ℕ) (s : Sequencer) (rts : List ℕ) (tlo : ℕ)
    (snq ts : ℕ) (marker : Bool) (layer : ℤ) (t : ℕ)
    (h : s.SnInv sn thr none rts tlo) :
    (s.push snq sn ts marker layer t).SnInv sn thr (some t) rts t := by
  obtain ⟨hrts, hno⟩ := h
  subst hrts
  obtain ⟨hm, hr, hs⟩ := getSlot_spec s sn
  unfold push
  rcases hgs : s.getSlot sn with ⟨s1, slot?⟩
  rw [hgs] at hm hs
  have hno1 : s1.NoSnEntry sn := NoSnEntry_transport sn s s1 hm hs hno
  cases slot? with
  | none =>
      refine ⟨by simp [maxAck], trivial, le_refl t, ?_, ?_⟩
      · intro sl idx hsl hT
        exact absurd hT (hno1 sl idx hsl)
      · intro sl idx sl' idx' hsl hsl' hT hT'
        exact absurd hT (hno1 sl idx hsl)
  | some slot => exact pushWrite_inv_self sn thr s1 _ slot t rfl rfl hno1

/-- `pushPadding` only clears slots; the invariant is preserved. -/
lemma pushPadding_inv (sn thr : ℕ) (s : Sequencer) (pushedAt : Option ℕ)
    (rts : List ℕ) (tlo : ℕ) (offSn : ℕ)
    (h : s.SnInv sn thr pushedAt rts tlo) :
    (s.pushPadding offSn).SnInv sn thr pushedAt rts tlo := by
  obtain ⟨hm, hr, hs⟩ := getSlot_spec s offSn
  unfold pushPadding
  rcases hgs : s.getSlot offSn with ⟨s1, slot?⟩
  rw [hgs] at hm hs
  have h1 : s1.SnInv sn thr pushedAt rts tlo := SnInv_transport sn thr s s1 _ _ _ hm hs h
  cases slot? with
  | none => exact h1
  | some slot =>
      refine SnInv_transport sn thr s1 _ _ _ _ rfl ?_ h1
      intro sl idx hsl
      by_cases hslot : sl = slot
      · simp [hslot] at hsl
      · simpa [hslot] using hsl

end Sequencer

lemma uSub_eq_of_le (R a b : ℕ) (hba : b ≤ a) (ha : a < R) : uSub R a b = a - b := by
  unfold uSub
  have h1 : a + R - b = (a - b) + R := by omega
  rw [h1, Nat.add_mod_right]
  exact Nat.mod_eq_of_lt (by omega)

namespace Sequencer

/-- One `getPacketsMeta` iteration at time `t` preserves the invariant,
extending the return times by the stamp of the record it returns for
`sn` (if any). -/
lemma getOne_inv (sn thr q t : ℕ) (s : Sequencer) (pushedAt : Option ℕ)
    (rts : List ℕ) (tlo : ℕ)
    (h : s.SnInv sn thr pushedAt rts tlo) (hthr : s.threshold = thr)
    (hlo : tlo ≤ t) (ht : t < u32Range) :
    ((s.getOnePacketMeta q t).1).SnInv sn thr pushedAt
      (rts ++ snStamp sn (s.getOnePacketMeta q t).2) t := by
  have hmono := SnInv_mono sn thr s pushedAt rts tlo t hlo h
  unfold getOnePacketMeta
  dsimp only
  split
  · simpa [snStamp] using hmono
  · split
    · simpa [snStamp] using hmono
    · rename_i idx hseq
      split
      · simpa [snStamp] using hmono
      · rename_i htq
        rw [not_not] at htq
        split
        · rename_i hguard
          rw [hthr] at hguard
          by_cases hq : (s.meta idx).targetSeqNo = sn
          · -- the returned record is sn's
            cases pushedAt with
            | none => exact absurd hq (h.2 _ idx hseq)
            | some tp =>
                obtain ⟨hlen, hsp, hlast, hcl, huniq⟩ := h
                obtain ⟨hnk, hln⟩ := hcl _ idx hseq hq
                have hL : (s.meta idx).lastNack ≤ t :=
                  le_trans (le_of_eq hln) (le_trans hlast hlo)
                have hsub : uSub u32Range t (s.meta idx).lastNack =
                    t - (s.meta idx).lastNack := uSub_eq_of_le u32Range t _ hL ht
                rw [hsub] at hguard
                have hspace : lastD rts tp + thr < t := by omega
                have hcap : rts.length < maxAck := by omega
                simp only [snStamp]
                rw [if_pos hq]
                refine ⟨?_, ?_, ?_, ?_, ?_⟩
                · simp only [List.length_append, List.length_singleton]
                  omega
                · exact spaced_snoc thr tp rts t hsp hspace
                · rw [lastD_concat]
                · -- per-entry clause for the updated state
                  intro sl idx' hsl hT
                  dsimp only at hsl hT ⊢
                  by_cases hip : idx' = idx
                  · subst hip
                    rw [if_pos rfl] at hT ⊢
                    dsimp only
                    constructor
                    · simp only [List.length_append, List.length_singleton]
                      omega
                    · rw [lastD_concat]
                  · rw [if_neg hip] at hT
                    exact absurd (huniq sl idx' _ idx hsl hseq hT hq) hip
                · -- uniqueness for the updated state
                  intro sl idx1 sl' idx2 hsl hsl' hT hT'
                  dsimp only at hsl hsl' hT hT'
                  by_cases h1 : idx1 = idx
                  · by_cases h2 : idx2 = idx
                    · rw [h1, h2]
                    · rw [if_neg h2] at hT'
                      exact absurd (huniq sl' idx2 _ idx hsl' hseq hT' hq) h2
                  · rw [if_neg h1] at hT
                    exact absurd (huniq sl idx1 _ idx hsl hseq hT hq) h1
          · -- a record for another target is returned: nothing stamped
            simp only [snStamp]
            rw [if_neg hq, List.append_nil]
            cases pushedAt with
            | none =>
                refine ⟨h.1, ?_⟩
                intro sl idx' hsl hT
                dsimp only at hsl hT
                by_cases hip : idx' = idx
                · subst hip
                  rw [if_pos rfl] at hT
                  exact hq hT
                · rw [if_neg hip] at hT
                  exact h.2 sl idx' hsl hT
            | some tp =>
                obtain ⟨hlen, hsp, hlast, hcl, huniq⟩ := h
                refine ⟨hlen, hsp, le_trans hlast hlo, ?_, ?_⟩
                · intro sl idx' hsl hT
                  dsimp only at hsl hT ⊢
                  by_cases hip : idx' = idx
                  · subst hip
                    rw [if_pos rfl] at hT
                    exact absurd hT hq
                  · rw [if_neg hip] at hT ⊢
                    exact hcl sl idx' hsl hT
                · intro sl idx1 sl' idx2 hsl hsl' hT hT'
                  dsimp only at hsl hsl' hT hT'
                  by_cases h1 : idx1 = idx
                  · subst h1
                    rw [if_pos rfl] at hT
                    exact absurd hT hq
                  · by_cases h2 : idx2 = idx
                    · subst h2
                      rw [if_pos rfl] at hT'
                      exact absurd hT' hq
                    · rw [if_neg h1] at hT
                      rw [if_neg h2] at hT'
                      exact huniq sl idx1 sl' idx2 hsl hsl' hT hT'
        · simpa [snStamp] using hmono

end Sequencer

namespace Sequencer

lemma threshold_congr {s s' : Sequencer} (h : s'.rtt = s.rtt) :
    s'.threshold = s.threshold := by
  unfold threshold
  rw [h]

lemma snReturns_toList_append (sn : ℕ) (m? : Option PacketMeta) (ms : List PacketMeta) :
    (snReturns sn (m?.toList ++ ms)).map PacketMeta.lastNack =
      snStamp sn m? ++ (snReturns sn ms).map PacketMeta.lastNack := by
  cases m? with
  | none => simp [snReturns, snStamp]
  | some m =>
      by_cases hm : m.targetSeqNo = sn <;>
        simp [snReturns, snStamp, hm]

lemma snReturns_append (sn : ℕ) (ms outs : List PacketMeta) :
    (snReturns sn (ms ++ outs)).map PacketMeta.lastNack =
      (snReturns sn ms).map PacketMeta.lastNack ++
        (snReturns sn outs).map PacketMeta.lastNack := by
  simp [snReturns]

/-- A whole `getPacketsMeta` call at time `t` preserves the invariant. -/
lemma getPacketsMeta_inv (sn thr t : ℕ) (seqNos : List ℕ) :
    ∀ (s : Sequencer) (pushedAt : Option ℕ) (rts : List ℕ) (tlo : ℕ),
      s.SnInv sn thr pushedAt rts tlo → s.threshold = thr → tlo ≤ t → t < u32Range →
      ((s.getPacketsMeta seqNos t).1).SnInv sn thr pushedAt
        (rts ++ (snReturns sn (s.getPacketsMeta seqNos t).2).map PacketMeta.lastNack) t ∧
      ((s.getPacketsMeta seqNos t).1).threshold = thr := by
  induction seqNos with
  | nil =>
      intro s pa rts tlo h hthr hlo ht
      refine ⟨?_, hthr⟩
      simpa [getPacketsMeta, snReturns] using SnInv_mono sn thr s pa rts tlo t hlo h
  | cons q rest ih =>
      intro s pa rts tlo h hthr hlo ht
      rcases hgo : s.getOnePacketMeta q t with ⟨s1, m?⟩
      rcases hgm : s1.getPacketsMeta rest t with ⟨s2, ms⟩
      have hrun : s.getPacketsMeta (q :: rest) t = (s2, m?.toList ++ ms) := by
        simp only [getPacketsMeta, hgo]
        rw [hgm]
      have h1 := getOne_inv sn thr q t s pa rts tlo h hthr hlo ht
      rw [hgo] at h1
      have hthr1 : s1.threshold = thr := by
        have := getOne_rtt s q t
        rw [hgo] at this
        exact (threshold_congr this).trans hthr
      have h2 := ih s1 pa (rts ++ snStamp sn m?) t h1 hthr1 le_rfl ht
      rw [hgm] at h2
      rw [hrun]
      constructor
      · rw [snReturns_toList_append, ← List.append_assoc]
        exact h2.1
      · exact h2.2

end Sequencer

namespace Sequencer

/-- Main invariant preservation over a whole trace. -/
lemma runEvents_inv (sn thr : ℕ) (events : List SeqEvent) :
    ∀ (s : Sequencer) (pushedAt : Option ℕ) (rts : List ℕ) (tlo : ℕ),
      s.SnInv sn thr pushedAt rts tlo → s.threshold = thr →
      timesMono tlo (events.map SeqEvent.time) →
      (∀ e ∈ events, SeqEvent.time e < u32Range) →
      events.countP (SeqEvent.isPushOf sn) + pushedAt.toList.length ≤ 1 →
      ∃ pushedAt' tlo',
        ((s.runEvents events).1).SnInv sn thr pushedAt'
          (rts ++ (snReturns sn (s.runEvents events).2).map PacketMeta.lastNack) tlo' ∧
        pushedAt'.toList = pushedAt.toList ++ pushTimesOf sn events := by
  induction events with
  | nil =>
      intro s pa rts tlo h hthr hchain hbound hcount
      refine ⟨pa, tlo, ?_, by simp [pushTimesOf]⟩
      simpa [runEvents, snReturns] using h
  | cons e rest ih =>
      intro s pa rts tlo h hthr hchain hbound hcount
      rw [List.map_cons] at hchain
      obtain ⟨hle, hchain'⟩ := hchain
      have hboundHead : SeqEvent.time e < u32Range := hbound e (by simp)
      have hbound' : ∀ e' ∈ rest, SeqEvent.time e' < u32Range :=
        fun e' he' => hbound e' (by simp [he'])
      cases e with
      | push snq offSn ts marker layer t =>
          by_cases hoff : offSn = sn
          · -- the push of sn itself
            subst hoff
            have hcnt : (SeqEvent.isPushOf offSn (.push snq offSn ts marker layer t)) = true := by
              simp [SeqEvent.isPushOf]
            have hpa : pa = none := by
              cases pa with
              | none => rfl
              | some tp =>
                  rw [List.countP_cons] at hcount
                  simp only [hcnt, if_true, Option.toList, List.length_cons,
                    List.length_nil] at hcount
                  omega
            subst hpa
            have hInv1 := push_inv_self offSn thr s rts tlo snq ts marker layer t h
            have hthr1 : (s.push snq offSn ts marker layer t).threshold = thr :=
              (threshold_congr (push_rtt s snq offSn ts marker layer t)).trans hthr
            have hcount' : rest.countP (SeqEvent.isPushOf offSn) + (some t).toList.length ≤ 1 := by
              rw [List.countP_cons] at hcount
              simp only [hcnt, if_true, Option.toList, List.length_cons,
                List.length_nil] at hcount ⊢
              omega
            obtain ⟨pa', tlo', hfin, hplist⟩ :=
              ih (s.push snq offSn ts marker layer t) (some t) rts t hInv1 hthr1
                hchain' hbound' hcount'
            refine ⟨pa', tlo', ?_, ?_⟩
            · simpa [runEvents] using hfin
            · rw [hplist]
              simp [pushTimesOf, SeqEvent.isPushOf, SeqEvent.time]
          · -- a push of another sequence number
            have hcnt : (SeqEvent.isPushOf sn (.push snq offSn ts marker layer t)) = false := by
              simp [SeqEvent.isPushOf, hoff]
            have hInv1 : (s.push snq offSn ts marker layer t).SnInv sn thr pa rts t :=
              SnInv_mono sn thr _ pa rts tlo t hle
                (push_inv_ne sn thr s pa rts tlo snq offSn ts marker layer t hoff h)
            have hthr1 : (s.push snq offSn ts marker layer t).threshold = thr :=
              (threshold_congr (push_rtt s snq offSn ts marker layer t)).trans hthr
            have hcount' : rest.countP (SeqEvent.isPushOf sn) + pa.toList.length ≤ 1 := by
              rw [List.countP_cons, hcnt] at hcount
              simpa using hcount
            obtain ⟨pa', tlo', hfin, hplist⟩ :=
              ih (s.push snq offSn ts marker layer t) pa rts t hInv1 hthr1
                hchain' hbound' hcount'
            refine ⟨pa', tlo', ?_, ?_⟩
            · simpa [runEvents] using hfin
            · rw [hplist]
              simp [pushTimesOf, SeqEvent.isPushOf, hoff]
      | pushPadding offSn t =>
          have hInv1 : (s.pushPadding offSn).SnInv sn thr pa rts t :=
            SnInv_mono sn thr _ pa rts tlo t hle
              (pushPadding_inv sn thr s pa rts tlo offSn h)
          have hthr1 : (s.pushPadding offSn).threshold = thr :=
            (threshold_congr (pushPadding_rtt s offSn)).trans hthr
          have hcount' : rest.countP (SeqEvent.isPushOf sn) + pa.toList.length ≤ 1 := by
            rw [List.countP_cons] at hcount
            simpa [SeqEvent.isPushOf] using hcount
          obtain ⟨pa', tlo', hfin, hplist⟩ :=
            ih (s.pushPadding offSn) pa rts t hInv1 hthr1
              hchain' hbound' hcount'
          refine ⟨pa', tlo', ?_, ?_⟩
          · simpa [runEvents] using hfin
          · rw [hplist]
            simp [pushTimesOf, SeqEvent.isPushOf]
      | get seqNos t =>
          rcases hgm : s.getPacketsMeta seqNos t with ⟨s1, ms⟩
          have h1 := getPacketsMeta_inv sn thr t seqNos s pa rts tlo h hthr hle hboundHead
          rw [hgm] at h1
          obtain ⟨hInv1, hthr1⟩ := h1
          have hcount' : rest.countP (SeqEvent.isPushOf sn) + pa.toList.length ≤ 1 := by
            rw [List.countP_cons] at hcount
            simpa [SeqEvent.isPushOf] using hcount
          obtain ⟨pa', tlo', hfin, hplist⟩ :=
            ih s1 pa (rts ++ (snReturns sn ms).map PacketMeta.lastNack) t hInv1 hthr1
              hchain' hbound' hcount'
          rcases hre : s1.runEvents rest with ⟨s2, outs⟩
          rw [hre] at hfin
          have hrun : s.runEvents (.get seqNos t :: rest) = (s2, ms ++ outs) := by
            simp only [runEvents, hgm]
            rw [hre]
          refine ⟨pa', tlo', ?_, ?_⟩
          · rw [hrun]
            dsimp only
            rw [snReturns_append, ← List.append_assoc]
            exact hfin
          · rw [hplist]
            simp [pushTimesOf, SeqEvent.isPushOf]

end Sequencer

/-- C6 counterexample: the claim caps returns at 3 "in total over any
sequence of push and getPacketsMeta calls", but a re-push of the same
sequence number (after the head moved past it) creates a fresh arena
entry with a zeroed nacked counter: target SN 500 is returned 4 times. -/
theorem C6_counterexample :
    (snReturns 500 ((newSequencer 10 10).runEvents
      [.push 500 500 0 false 0 0, .get [500] 101, .get [500] 202, .get [500] 303,
       .get [500] 350, .push 501 501 0 false 0 404, .push 500 500 0 false 0 405,
       .get [500] 506]).2).length = 4 := by
  decide

/-- C6 amended: over any sequence of push / pushPadding / getPacketsMeta
calls with nondecreasing reference times below 2^32, a sequence number
pushed at most once is returned at most 3 times, and its push and its
returns are pairwise separated by strictly more than
min(100 ms, 2·rtt). -/
theorem C6_amended (maxTrack maxPadding rtt0 sn : ℕ) (events : List SeqEvent)
    (hmono : timesMono 0 (events.map SeqEvent.time))
    (hbound : ∀ e ∈ events, SeqEvent.time e < u32Range)
    (hpush : events.countP (SeqEvent.isPushOf sn) ≤ 1) :
    (snReturns sn
        (((newSequencer maxTrack maxPadding).setRtt rtt0).runEvents events).2).length ≤
      maxAck ∧
    spaced ((newSequencer maxTrack maxPadding).setRtt rtt0).threshold
      (pushTimesOf sn events ++
        (snReturns sn
            (((newSequencer maxTrack maxPadding).setRtt rtt0).runEvents events).2).map
          PacketMeta.lastNack) := by
  have hInv0 : ((newSequencer maxTrack maxPadding).setRtt rtt0).SnInv sn
      ((newSequencer maxTrack maxPadding).setRtt rtt0).threshold none [] 0 := by
    refine ⟨rfl, ?_⟩
    intro slot idx hsl
    by_cases h0 : rtt0 = 0 <;>
      simp [newSequencer, Sequencer.setRtt, h0] at hsl
  obtain ⟨pa', tlo', hfin, hplist⟩ :=
    Sequencer.runEvents_inv sn ((newSequencer maxTrack maxPadding).setRtt rtt0).threshold
      events ((newSequencer maxTrack maxPadding).setRtt rtt0) none [] 0 hInv0 rfl hmono
      hbound (by simpa using hpush)
  rw [List.nil_append] at hfin
  cases pa' with
  | none =>
      obtain ⟨hrts, _⟩ := hfin
      have hlen : (snReturns sn
          (((newSequencer maxTrack maxPadding).setRtt rtt0).runEvents events).2).length = 0 := by
        have := congrArg List.length hrts
        simpa using this
      have hpt : pushTimesOf sn events = [] := by
        simpa using hplist.symm
      constructor
      · omega
      · rw [hpt, List.nil_append]
        have hmap : (snReturns sn
            (((newSequencer maxTrack maxPadding).setRtt rtt0).runEvents events).2).map
            PacketMeta.lastNack = [] := by
          rw [hrts]
        rw [hmap]
        trivial
  | some tp =>
      obtain ⟨hlen, hsp, _, _⟩ := hfin
      have hpt : pushTimesOf sn events = [tp] := by
        simpa using hplist.symm
      constructor
      · simpa using hlen
      · rw [hpt]
        exact hsp

/-- Witness for C6 amended on a concrete single-push trace. -/
theorem C6_amended_witness :
    (timesMono 0
        (([SeqEvent.push 500 500 0 false 0 0, .get [500] 101, .get [500] 202]).map
          SeqEvent.time) ∧
      (∀ e ∈ [SeqEvent.push 500 500 0 false 0 0, .get [500] 101, .get [500] 202],
        SeqEvent.time e < u32Range) ∧
      ([SeqEvent.push 500 500 0 false 0 0, .get [500] 101, .get [500] 202]).countP
          (SeqEvent.isPushOf 500) ≤ 1) ∧
    ((snReturns 500
        (((newSequencer 10 10).setRtt 0).runEvents
          [SeqEvent.push 500 500 0 false 0 0, .get [500] 101, .get [500] 202]).2).length ≤
      maxAck ∧
    spaced ((newSequencer 10 10).setRtt 0).threshold
      (pushTimesOf 500 [SeqEvent.push 500 500 0 false 0 0, .get [500] 101, .get [500] 202] ++
        (snReturns 500
            (((newSequencer 10 10).setRtt 0).runEvents
              [SeqEvent.push 500 500 0 false 0 0, .get [500] 101, .get [500] 202]).2).map
          PacketMeta.lastNack)) :=
  ⟨⟨by decide, by decide, by decide⟩,
    C6_amended 10 10 0 500
      [SeqEvent.push 500 500 0 false 0 0, .get [500] 101, .get [500] 202]
      (by decide) (by decide) (by decide)⟩

end LiveKit
